import Mathlib

/-!
# Verification of `scripts/migrate-mcp-to-services.py`

A shallow embedding of the one-shot source generator: a mapping table
from tool names to backing service calls, a renderer producing one
TypeScript registration block per entry, and an emitter that prints a
header, the blocks in sorted order, and a trailing count line.

Strings are modelled with Lean `String`; the process's standard output
is modelled as the concatenation of everything `print` writes.  Python's
`print(s)` appends a newline, modelled by `pr`.  Python's
`sorted(TOOL_MAPPINGS.items())` sorts the `(key, value)` tuples; since
the keys of a Python `dict` are unique, that order is determined by the
key alone, and a stable sort by key produces exactly the same list;
`sortedEntries` below is therefore a faithful model of the iteration
order of `main`.
-/

set_option maxRecDepth 100000

/-- One entry of the mapping table: `(toolName, (serviceName, methodName,
argumentExpressions))`, mirroring the Python dict item
`tool_name -> (service, method, args)`. -/
abbrev ToolEntry := String × String × String × List String

/-- The `TOOL_MAPPINGS` dict of the script, as its ordered list of items
(declaration order). -/
def TOOL_MAPPINGS : List ToolEntry :=
  [ ("list_entanglements", ("entanglements", "list", ["args"])),
    ("get_entanglement", ("entanglements", "get",
      ["args.id", "args.include_children_qupts", "args.detailed ? 50 : 20"])),
    ("get_child_entanglements", ("entanglements", "getChildren",
      ["args.parent_id", "args.recursive"])),
    ("create_entanglement", ("entanglements", "create", ["args"])),
    ("update_entanglement", ("entanglements", "update", ["args.id", "args"])),
    ("move_entanglement", ("entanglements", "move", ["args.id", "args.new_parent_id"])),
    ("delete_entanglement", ("entanglements", "delete", ["args.id", "args.confirm"])),
    ("get_matrix", ("entanglements", "getMatrix", ["args.entanglement_id"])),
    ("entangle", ("entanglements", "assignToMatrix", ["args.entanglement_id", "args"])),
    ("disentangle", ("entanglements", "removeFromMatrix",
      ["args.entanglement_id", "args.zoku_id", "args.role"])),
    ("get_attributes", ("entanglements", "getAttributes", ["args.entanglement_id"])),
    ("list_sources", ("entanglements", "listSources", ["args.entanglement_id"])),
    ("list_zoku", ("zoku", "list", ["args"])),
    ("create_zoku", ("zoku", "create", ["args"])),
    ("get_entangled", ("zoku", "get", ["args.id"])),
    ("list_qupts", ("qupts", "list", ["args"])),
    ("create_qupt", ("qupts", "create", ["args"])),
    ("add_jewel", ("jewels", "create", ["args"])),
    ("list_jewels", ("jewels", "list", ["args"])),
    ("get_jewel", ("jewels", "get", ["args.id"])),
    ("update_jewel", ("jewels", "update", ["args.id", "args"])),
    ("delete_jewel", ("jewels", "delete", ["args.id"])),
    ("get_jewel_usage", ("jewels", "getUsage", ["args.id"])),
    ("add_source", ("sources", "create", ["args.entanglement_id", "args"])),
    ("sync_source", ("sources", "sync", ["args.source_id"])),
    ("remove_source", ("sources", "delete", ["args.source_id"])),
    ("toggle_source", ("sources", "update", ["args.source_id", "\x7b enabled: args.enabled \x7d"])) ]

/-- The function `generate_tool_impl` of the script: the f-string template rendered for
one tool.  `\x27` is the apostrophe, `\x7b`/`\x7d` are the braces that the
Python template writes as `{{`/`}}`. -/
def generate_tool_impl (tool_name service_name method_name : String)
    (method_args : List String) : String :=
  let args_str := String.intercalate (", ") method_args
  "  server.registerTool(\n    \x27" ++ tool_name
    ++ "\x27,\n    \x7b\n      description: schemas." ++ tool_name
    ++ ".description,\n      inputSchema: schemas." ++ tool_name
    ++ "\n    \x7d,\n    async (args, extra) => \x7b\n      return mcpToolWrapper(\x27"
    ++ tool_name
    ++ "\x27, logger, extra.sessionId, async () => \x7b\n        const result = await services."
    ++ service_name ++ "." ++ method_name ++ "(" ++ args_str ++ ")"
    ++ ";\n        return result;\n      \x7d);\n    \x7d\n  );\n"

/-- Python string comparison on code-point sequences: `a < b` when at the
first differing position the code point of `a` is smaller, or when `a` is a
strict prefix of `b`. -/
def charsLt : List Char → List Char → Bool
  | [], [] => false
  | [], _ :: _ => true
  | _ :: _, [] => false
  | a :: as, b :: bs => if a = b then charsLt as bs else decide (a.toNat < b.toNat)

/-- Python `a < b` on strings. -/
def strLt (a b : String) : Bool := charsLt a.data b.data

/-- Python `a <= b` on strings. -/
def strLe (a b : String) : Bool := !(charsLt b.data a.data)

/-- Order in which `sorted(TOOL_MAPPINGS.items())` arranges two dict items:
Python tuple comparison starts with the first components, and since the keys
of a dict are unique the key comparison already decides the order. -/
def entryLe (a b : ToolEntry) : Prop := strLe a.1 b.1 = true

instance : DecidableRel entryLe := fun a b =>
  (inferInstance : Decidable (strLe a.1 b.1 = true))

/-- Model of `sorted(TOOL_MAPPINGS.items())`: the entries of the table in ascending
order of the comparison above. -/
def sortedEntries (table : List ToolEntry) : List ToolEntry :=
  table.insertionSort entryLe

/-- Renders one entry of the table. -/
def renderEntry (e : ToolEntry) : String :=
  generate_tool_impl e.1 e.2.1 e.2.2.1 e.2.2.2

/-- The rendered blocks of one run, in emission order. -/
def emittedBlocks (table : List ToolEntry) : List String :=
  (sortedEntries table).map renderEntry

/-- Python `print`: the printed string followed by a newline. -/
def pr (s : String) : String := s ++ "\n"

/-- The function `main` of the script: everything one run writes to standard output. -/
def mainOutput (table : List ToolEntry) : String :=
  pr ("// Generated MCP tool registrations using services\n")
    ++ String.join ((emittedBlocks table).map (fun code => pr code))
    ++ pr ("\n// Total tools migrated: " ++ toString table.length)

/-- Number of occurrences of `pat` as a contiguous sublist of `s`
(occurrences at distinct start positions are counted separately). -/
def countOccs (pat : List Char) : List Char → Nat
  | [] => if pat.isEmpty then 1 else 0
  | c :: rest =>
      (if pat.isPrefixOf (c :: rest) then 1 else 0) + countOccs pat rest

/-- Predicate: `pat` occurs somewhere in `s` as a contiguous substring. -/
def occursIn (pat s : String) : Prop := 0 < countOccs pat.data s.data

instance (pat s : String) : Decidable (occursIn pat s) :=
  (inferInstance : Decidable (0 < countOccs pat.data s.data))

/-- Modelled from the spec: "exact string concatenation of the expression
list with a comma-and-space delimiter, preserving declared order; an empty
list renders as an empty argument list". -/
def specJoin : List String → String
  | [] => ""
  | [x] => x
  | x :: xs => x ++ ", " ++ specJoin xs

/-- The tail of a comma-and-space join: every element preceded by `", "`. -/
def sepTail : List String → String
  | [] => ""
  | x :: xs => ", " ++ x ++ sepTail xs

/-- Modelled from the spec: the output structure asserted by the spec read
literally — a single header line, then each rendered block followed by one
blank line separator, then the trailing count line.  (The script emits an
additional blank line after the header and before the trailer; see the
theorems below.) -/
def specOutput (table : List ToolEntry) : String :=
  "// Generated MCP tool registrations using services\n"
    ++ String.join ((emittedBlocks table).map (fun b => b ++ "\n"))
    ++ ("// Total tools migrated: " ++ toString table.length ++ "\n")

/-- A hypothetical mapping table in which two entries share a tool name;
a Python dict cannot hold it, but the rendering and emission logic accepts
it without any duplicate detection. -/
def dupTable : List ToolEntry :=
  [ ("dup_tool", ("svcA", "methodA", ["args"])),
    ("dup_tool", ("svcB", "methodB", ["args.id"])) ]

/-! ## Lemmas about the code-point order -/

theorem charsLt_asymm : ∀ (a b : List Char),
    charsLt a b = true → charsLt b a = false
  | [], [], h => by simp [charsLt] at h
  | [], _ :: _, _ => by simp [charsLt]
  | _ :: _, [], h => by simp [charsLt] at h
  | a :: as, b :: bs, h => by
    simp only [charsLt] at h ⊢
    by_cases hab : a = b
    · subst hab
      simp only [if_pos rfl] at h ⊢
      exact charsLt_asymm as bs h
    · rw [if_neg hab] at h
      rw [if_neg (Ne.symm hab)]
      simp only [decide_eq_true_eq] at h
      simp only [decide_eq_false_iff_not]
      omega

theorem charsLt_trans : ∀ (a b c : List Char),
    charsLt a b = true → charsLt b c = true → charsLt a c = true
  | [], [], _, h1, _ => by simp [charsLt] at h1
  | _ :: _, [], _, h1, _ => by simp [charsLt] at h1
  | _, _ :: _, [], _, h2 => by simp [charsLt] at h2
  | [], _ :: _, _ :: _, _, _ => by simp [charsLt]
  | a :: as, b :: bs, c :: cs, h1, h2 => by
    simp only [charsLt] at h1 h2 ⊢
    by_cases hab : a = b
    · subst hab
      simp only [if_pos rfl] at h1
      by_cases hac : a = c
      · subst hac
        simp only [if_pos rfl] at h2 ⊢
        exact charsLt_trans as bs cs h1 h2
      · rw [if_neg hac] at h2 ⊢
        exact h2
    · rw [if_neg hab] at h1
      simp only [decide_eq_true_eq] at h1
      by_cases hbc : b = c
      · subst hbc
        by_cases hac : a = b
        · exact absurd hac hab
        · rw [if_neg hac]
          simp only [decide_eq_true_eq]
          exact h1
      · rw [if_neg hbc] at h2
        simp only [decide_eq_true_eq] at h2
        by_cases hac : a = c
        · subst hac
          exact absurd h1 (by omega)
        · rw [if_neg hac]
          simp only [decide_eq_true_eq]
          omega

theorem charsLt_connex : ∀ (a b : List Char),
    charsLt a b = false → charsLt b a = false → a = b
  | [], [], _, _ => rfl
  | [], _ :: _, h1, _ => by simp [charsLt] at h1
  | _ :: _, [], _, h2 => by simp [charsLt] at h2
  | a :: as, b :: bs, h1, h2 => by
    by_cases hab : a = b
    · subst hab
      simp only [charsLt, if_pos rfl] at h1 h2
      rw [charsLt_connex as bs h1 h2]
    · simp only [charsLt, if_neg hab, if_neg (Ne.symm hab),
        decide_eq_false_iff_not, Char.toNat] at h1 h2
      exact absurd (Char.ext (UInt32.ext (by omega))) hab

theorem strLe_total (a b : String) : strLe a b = true ∨ strLe b a = true := by
  simp only [strLe, Bool.not_eq_true']
  cases h : charsLt a.data b.data with
  | true => exact Or.inl (charsLt_asymm _ _ h)
  | false => exact Or.inr rfl

theorem strLe_trans (a b c : String) (h1 : strLe a b = true)
    (h2 : strLe b c = true) : strLe a c = true := by
  simp only [strLe, Bool.not_eq_true'] at h1 h2 ⊢
  cases h3 : charsLt c.data a.data with
  | false => rfl
  | true =>
    cases h4 : charsLt b.data c.data with
    | true => rw [charsLt_trans _ _ _ h4 h3] at h1; exact h1
    | false =>
      have hbc : b.data = c.data := charsLt_connex _ _ h4 h2
      rw [← hbc] at h3
      rw [h3] at h1
      exact h1

theorem strLe_antisymm (a b : String) (h1 : strLe a b = true)
    (h2 : strLe b a = true) : a = b := by
  simp only [strLe, Bool.not_eq_true'] at h1 h2
  exact String.toList_inj.mp (charsLt_connex a.data b.data h2 h1)

theorem strLt_of_le_of_ne (a b : String) (h1 : strLe a b = true)
    (h2 : a ≠ b) : strLt a b = true := by
  simp only [strLe, Bool.not_eq_true'] at h1
  simp only [strLt]
  cases h3 : charsLt a.data b.data with
  | true => rfl
  | false => exact absurd (String.toList_inj.mp (charsLt_connex a.data b.data h3 h1)) h2

instance : IsTotal ToolEntry entryLe := ⟨fun a b => strLe_total a.1 b.1⟩

instance : IsTrans ToolEntry entryLe :=
  ⟨fun _ _ _ h1 h2 => strLe_trans _ _ _ h1 h2⟩

/-! ## Lemmas about the emission order -/

theorem sortedEntries_perm (table : List ToolEntry) :
    (sortedEntries table).Perm table :=
  List.perm_insertionSort entryLe table

theorem sortedEntries_sorted (table : List ToolEntry) :
    (sortedEntries table).Sorted entryLe :=
  List.sorted_insertionSort entryLe table

theorem entryLe_key_eq {a b : ToolEntry} (h1 : entryLe a b) (h2 : entryLe b a) :
    a.1 = b.1 :=
  strLe_antisymm a.1 b.1 h1 h2

/-- Two sorted lists with the same entries and duplicate-free keys coincide:
the sorted order of a table with unique tool names is unique, so any stable
sort (in particular Python's) produces it. -/
theorem sorted_nodup_unique : ∀ {l₁ l₂ : List ToolEntry}, l₁.Perm l₂ →
    l₁.Sorted entryLe → l₂.Sorted entryLe → (l₁.map Prod.fst).Nodup → l₁ = l₂
  | [], l₂, hp, _, _, _ => hp.nil_eq
  | a :: t₁, [], hp, _, _, _ => absurd hp.symm (by simp)
  | a :: t₁, b :: t₂, hp, hs₁, hs₂, hnd => by
    have hab : a = b := by
      have hbmem : b ∈ a :: t₁ := hp.symm.subset (List.mem_cons_self b t₂)
      have hamem : a ∈ b :: t₂ := hp.subset (List.mem_cons_self a t₁)
      rcases List.mem_cons.mp hbmem with hba | hbt
      · exact hba.symm
      rcases List.mem_cons.mp hamem with hab | hat
      · exact hab
      have h1 : entryLe a b := (List.sorted_cons.mp hs₁).1 b hbt
      have h2 : entryLe b a := (List.sorted_cons.mp hs₂).1 a hat
      have hk : a.1 = b.1 := entryLe_key_eq h1 h2
      have hmem : a.1 ∈ t₁.map Prod.fst := hk ▸ List.mem_map_of_mem Prod.fst hbt
      rw [List.map_cons, List.nodup_cons] at hnd
      exact absurd hmem hnd.1
    subst hab
    have ht : t₁ = t₂ :=
      sorted_nodup_unique hp.cons_inv (List.sorted_cons.mp hs₁).2
        (List.sorted_cons.mp hs₂).2
        (by rw [List.map_cons, List.nodup_cons] at hnd; exact hnd.2)
    rw [ht]

/-! ## Lemmas about argument joining -/

theorem intercalate_go_eq : ∀ (xs : List String) (acc : String),
    String.intercalate.go acc (", ") xs = acc ++ sepTail xs
  | [], acc => by simp [String.intercalate.go, sepTail]
  | x :: xs, acc => by
    rw [String.intercalate.go, intercalate_go_eq xs (acc ++ ", " ++ x)]
    simp [sepTail, String.append_assoc]

theorem specJoin_eq_sepTail : ∀ (x : String) (xs : List String),
    specJoin (x :: xs) = x ++ sepTail xs
  | x, [] => by simp [specJoin, sepTail]
  | x, y :: ys => by
    rw [show specJoin (x :: y :: ys) = x ++ ", " ++ specJoin (y :: ys) from rfl,
      specJoin_eq_sepTail y ys]
    simp [sepTail, String.append_assoc]

/-- The argument-joining of the source (`", ".join`) is exactly the
comma-and-space concatenation described by the spec. -/
theorem intercalate_eq_specJoin : ∀ (xs : List String),
    String.intercalate (", ") xs = specJoin xs
  | [] => rfl
  | x :: xs => by
    rw [String.intercalate, intercalate_go_eq xs x, specJoin_eq_sepTail x xs]

/-! ## Claims -/

/-- C1: for every entry `(toolName, serviceName, methodName,
argumentExpressions)` of the mapping table, the rendered block contains
exactly one call of the form `serviceName.methodName(joined arguments)`
with the arguments joined in declared order, encodes the tool name as a
quoted literal, references the schema/description object keyed by the tool
name, and passes the tool name, the logger reference and the session
identifier to the `mcpToolWrapper` invocation. -/
theorem claim_c1_block_contents :
    ∀ e ∈ TOOL_MAPPINGS,
      countOccs (e.2.1 ++ "." ++ e.2.2.1 ++ "("
          ++ String.intercalate (", ") e.2.2.2 ++ ")").data (renderEntry e).data = 1 ∧
      occursIn ("\x27" ++ e.1 ++ "\x27") (renderEntry e) ∧
      occursIn ("schemas." ++ e.1) (renderEntry e) ∧
      occursIn ("mcpToolWrapper(\x27" ++ e.1 ++ "\x27, logger, extra.sessionId,")
        (renderEntry e) := by
  decide

/-- Witness for C1 at the concrete entry `list_entanglements`. -/
theorem claim_c1_witness :
    ("list_entanglements", (("entanglements" : String), ("list" : String),
        (["args"] : List String))) ∈ TOOL_MAPPINGS ∧
      (countOccs ("entanglements" ++ "." ++ "list" ++ "("
          ++ String.intercalate (", ") ["args"] ++ ")").data
        (renderEntry ("list_entanglements", ("entanglements", "list", ["args"]))).data = 1 ∧
      occursIn ("\x27" ++ "list_entanglements" ++ "\x27")
        (renderEntry ("list_entanglements", ("entanglements", "list", ["args"]))) ∧
      occursIn ("schemas." ++ "list_entanglements")
        (renderEntry ("list_entanglements", ("entanglements", "list", ["args"]))) ∧
      occursIn ("mcpToolWrapper(\x27" ++ "list_entanglements"
          ++ "\x27, logger, extra.sessionId,")
        (renderEntry ("list_entanglements", ("entanglements", "list", ["args"])))) :=
  ⟨by decide,
    claim_c1_block_contents ("list_entanglements", ("entanglements", "list", ["args"]))
      (by decide)⟩

/-- C3: the rendered argument list is exactly the declared expression list
joined with the comma-and-space delimiter in declared order (the source's
`", ".join` equals the spec's concatenation), and an empty expression list
renders balanced empty parentheses `()`. -/
theorem claim_c3_argument_join (t s m : String) (as : List String) :
    String.intercalate (", ") as = specJoin as ∧
    (∃ pre post, generate_tool_impl t s m as =
        pre ++ (s ++ "." ++ m ++ "(" ++ specJoin as ++ ")") ++ post) ∧
    "(" ++ specJoin ([] : List String) ++ ")" = "()" := by
  refine ⟨intercalate_eq_specJoin as, ?_, rfl⟩
  refine ⟨"  server.registerTool(\n    \x27" ++ t
      ++ "\x27,\n    \x7b\n      description: schemas." ++ t
      ++ ".description,\n      inputSchema: schemas." ++ t
      ++ "\n    \x7d,\n    async (args, extra) => \x7b\n      return mcpToolWrapper(\x27"
      ++ t
      ++ "\x27, logger, extra.sessionId, async () => \x7b\n        const result = await services.",
    ";\n        return result;\n      \x7d);\n    \x7d\n  );\n", ?_⟩
  rw [← intercalate_eq_specJoin as]
  simp [generate_tool_impl, String.append_assoc]

/-- C5: the generator is deterministic and idempotent — the output is a
function of the mapping table alone, so runs over equal tables are
byte-identical.  (In this embedding `mainOutput` is a pure function of the
table, which is exactly the property claimed.) -/
theorem claim_c5_deterministic (t₁ t₂ : List ToolEntry) (h : t₁ = t₂) :
    mainOutput t₁ = mainOutput t₂ :=
  congrArg mainOutput h

/-- Witness for C5: two runs over the unchanged concrete table. -/
theorem claim_c5_witness : mainOutput TOOL_MAPPINGS = mainOutput TOOL_MAPPINGS :=
  claim_c5_deterministic TOOL_MAPPINGS TOOL_MAPPINGS rfl

/-- C7: the `list_zoku` entry is in the table and renders a block containing
`zoku.list(args)` and a reference to the schema keyed by `list_zoku`; the
`disentangle` entry is in the table and renders
`entanglements.removeFromMatrix(args.entanglement_id, args.zoku_id, args.role)`
with the arguments in exactly that order. -/
theorem claim_c7_examples :
    ("list_zoku", (("zoku" : String), ("list" : String), (["args"] : List String)))
        ∈ TOOL_MAPPINGS ∧
    occursIn ("zoku.list(args)") (renderEntry ("list_zoku", ("zoku", "list", ["args"]))) ∧
    occursIn ("schemas.list_zoku") (renderEntry ("list_zoku", ("zoku", "list", ["args"]))) ∧
    ("disentangle", (("entanglements" : String), ("removeFromMatrix" : String),
        (["args.entanglement_id", "args.zoku_id", "args.role"] : List String)))
        ∈ TOOL_MAPPINGS ∧
    occursIn ("entanglements.removeFromMatrix(args.entanglement_id, args.zoku_id, args.role)")
      (renderEntry ("disentangle", ("entanglements", "removeFromMatrix",
        ["args.entanglement_id", "args.zoku_id", "args.role"]))) := by
  decide

/-- C8: the renderer is a total, side-effect-free function from record to
text: for every record, empty argument list included, it returns a (nonempty)
text block.  Totality and purity hold by construction of the embedding. -/
theorem claim_c8_renderer_total (t s m : String) (as : List String) :
    ∃ out : String, generate_tool_impl t s m as = out ∧ 0 < out.length := by
  refine ⟨generate_tool_impl t s m as, rfl, ?_⟩
  have h : (0 : Nat) < ("  server.registerTool(\n    \x27" : String).length := by decide
  simp only [generate_tool_impl, String.length_append]
  omega

/-- C10: the keys of the mapping table are pairwise distinct (it is a dict
keyed by tool name), so one run renders pairwise distinct tool names and the
emitter never emits two blocks bearing the same tool-name literal. -/
theorem claim_c10_no_duplicates :
    (TOOL_MAPPINGS.map Prod.fst).Nodup ∧
    ((sortedEntries TOOL_MAPPINGS).map Prod.fst).Nodup ∧
    (emittedBlocks TOOL_MAPPINGS).Nodup := by
  decide

/-- C2: the emitted blocks appear in strictly ascending lexicographic order
of tool name, independent of the order in which the table's entries were
declared: for every table with pairwise-distinct tool names, the keys of the
emission order are pairwise strictly ascending, and every permutation of the
table is emitted in exactly the same order. -/
theorem claim_c2_sorted_output (l : List ToolEntry)
    (h : (l.map Prod.fst).Nodup) :
    ((sortedEntries l).map Prod.fst).Pairwise (fun a b => strLt a b = true) ∧
    ∀ l2, l.Perm l2 → sortedEntries l2 = sortedEntries l := by
  constructor
  · have hs : (sortedEntries l).Pairwise entryLe := sortedEntries_sorted l
    have hnd : ((sortedEntries l).map Prod.fst).Nodup :=
      (((sortedEntries_perm l).map Prod.fst).nodup_iff).mpr h
    simp only [List.Nodup] at hnd
    rw [List.pairwise_map] at hnd
    rw [List.pairwise_map]
    exact List.Pairwise.imp₂
      (fun a b hle hne => strLt_of_le_of_ne a.1 b.1 hle hne) hs hnd
  · intro l2 hp
    refine sorted_nodup_unique ?_ (sortedEntries_sorted l2) (sortedEntries_sorted l) ?_
    · exact (sortedEntries_perm l2).trans (hp.symm.trans (sortedEntries_perm l).symm)
    · exact (((sortedEntries_perm l2).map Prod.fst).nodup_iff).mpr
        (((hp.map Prod.fst).nodup_iff).mp h)

/-- Witness for C2 at the concrete table, with its reversal as the
permuted declaration order. -/
theorem claim_c2_witness :
    ((sortedEntries TOOL_MAPPINGS).map Prod.fst).Pairwise
        (fun a b => strLt a b = true) ∧
      sortedEntries TOOL_MAPPINGS.reverse = sortedEntries TOOL_MAPPINGS := by
  have h := claim_c2_sorted_output TOOL_MAPPINGS (by decide)
  exact ⟨h.1, h.2 TOOL_MAPPINGS.reverse (List.reverse_perm TOOL_MAPPINGS).symm⟩

/-- C4: a run over a table of `N` entries emits exactly `N` rendered blocks,
and the trailing count line reports `N`; concretely, the script's table
yields 27 blocks and a trailer reporting 27. -/
theorem claim_c4_count (l : List ToolEntry) :
    (emittedBlocks l).length = l.length ∧
    (∃ pre, mainOutput l =
        pre ++ ("// Total tools migrated: " ++ (toString l.length ++ "\n"))) ∧
    (emittedBlocks TOOL_MAPPINGS).length = 27 ∧
    (∃ pre, mainOutput TOOL_MAPPINGS =
        pre ++ ("// Total tools migrated: " ++ ("27" ++ "\n"))) := by
  have hlen : ∀ l2 : List ToolEntry, (emittedBlocks l2).length = l2.length := by
    intro l2
    simp [emittedBlocks, sortedEntries, List.length_insertionSort]
  have hpre : ∀ l2 : List ToolEntry, ∃ pre, mainOutput l2 =
      pre ++ ("// Total tools migrated: " ++ (toString l2.length ++ "\n")) := by
    intro l2
    refine ⟨pr ("// Generated MCP tool registrations using services\n")
      ++ String.join ((emittedBlocks l2).map (fun code => pr code)) ++ "\n", ?_⟩
    have hsplit : ("\n// Total tools migrated: " : String)
        = "\n" ++ "// Total tools migrated: " := rfl
    simp only [mainOutput, pr, hsplit, String.append_assoc]
  refine ⟨hlen l, hpre l, ?_, ?_⟩
  · rw [hlen TOOL_MAPPINGS]
    decide
  · have h27 : toString TOOL_MAPPINGS.length = "27" := by decide
    have h := hpre TOOL_MAPPINGS
    rw [h27] at h
    exact h

/-- C6: the generator validates nothing: a (hypothetical) table carrying two
entries with the same tool name is emitted as two registration blocks both
bearing that tool-name literal, and arbitrary malformed argument-expression
text is passed through to the output verbatim. -/
theorem claim_c6_no_validation :
    ((emittedBlocks dupTable).length = 2 ∧
      ∀ b ∈ emittedBlocks dupTable, occursIn ("\x27dup_tool\x27") b) ∧
    countOccs ("registerTool(\n    \x27dup_tool\x27").data (mainOutput dupTable).data = 2 ∧
    ∀ (t s m junk : String), ∃ pre post,
      generate_tool_impl t s m [junk] = pre ++ junk ++ post := by
  refine ⟨by decide, by decide, ?_⟩
  intro t s m junk
  have hj : String.intercalate (", ") [junk] = junk := by
    rw [intercalate_eq_specJoin]
    rfl
  refine ⟨"  server.registerTool(\n    \x27" ++ t
      ++ "\x27,\n    \x7b\n      description: schemas." ++ t
      ++ ".description,\n      inputSchema: schemas." ++ t
      ++ "\n    \x7d,\n    async (args, extra) => \x7b\n      return mcpToolWrapper(\x27"
      ++ t
      ++ "\x27, logger, extra.sessionId, async () => \x7b\n        const result = await services."
      ++ s ++ "." ++ m ++ "(",
    ")" ++ ";\n        return result;\n      \x7d);\n    \x7d\n  );\n", ?_⟩
  simp [generate_tool_impl, hj, String.append_assoc]

/-- C9 (counterexample): the output of the script is not the structure the
claim states when read exactly — a header line, the blocks each followed by
one blank-line separator, and the count line with nothing else — because the
script prints an additional blank line after the header (and another before
the trailer). -/
theorem claim_c9_counterexample :
    mainOutput TOOL_MAPPINGS ≠ specOutput TOOL_MAPPINGS := by
  intro h
  have h60 := congrArg (fun s => s.data.take 60) h
  simp only at h60
  exact absurd h60 (by decide)

/-- C9 (amended): the output structure, in order, is: a single header line,
a blank line, one rendered block per entry each followed by a blank-line
separator, one additional blank line, and the trailing count line with its
terminating newline. -/
theorem claim_c9_structure (table : List ToolEntry) :
    mainOutput table =
      "// Generated MCP tool registrations using services" ++ "\n"
        ++ "\n"
        ++ String.join ((emittedBlocks table).map (fun b => b ++ "\n"))
        ++ "\n"
        ++ ("// Total tools migrated: " ++ (toString table.length ++ "\n")) := by
  have hsplit1 : ("// Generated MCP tool registrations using services\n" : String)
      = "// Generated MCP tool registrations using services" ++ "\n" := rfl
  have hsplit2 : ("\n// Total tools migrated: " : String)
      = "\n" ++ "// Total tools migrated: " := rfl
  simp only [mainOutput, pr, hsplit1, hsplit2, String.append_assoc]
